import Mathlib

/-!
Verification of the measurement core of `iroh-gossip-metrics`.

The definitions below are a shallow embedding of `src/metrics.rs` and of the
receiver loop of `src/transport.rs`:

* `u64` values become `Nat` (none of the `u64` arithmetic in the source can
  overflow on reachable data: counters are incremented once per received
  message and `saturating_sub` is exactly `Nat` subtraction);
* the one place where machine width matters is the `message.seq as i64` cast
  in `Stats::record`, which is modelled by the explicit wrapping cast `toI64`;
* `f64` values (ratios, time-weighted accumulators) are modelled as exact
  rationals `ℚ`;
* `HashSet<u64>` becomes `Finset ℕ` (`len` = `Finset.card`);
* `Vec<u64>` with `push` becomes `List ℕ` with append.
-/

namespace IrohGossipMetrics

/-- Wrapping cast of a `u64` value to `i64`, as performed by Rust's
`as i64` numeric cast: reduce modulo `2^64` and reinterpret values
`≥ 2^63` as negatives. -/
def toI64 (n : Nat) : Int :=
  if n % 2 ^ 64 < 2 ^ 63 then ((n % 2 ^ 64 : Nat) : Int)
  else ((n % 2 ^ 64 : Nat) : Int) - 2 ^ 64

/-- Application-level payload sent during benchmarks (`DataMsg` in
`src/metrics.rs`).  The 128-bit `test_id` is modelled as a `Nat`; its width
plays no role in the metrics logic. `pad` is carried but never read. -/
structure DataMsg where
  test_id : Nat
  seq : Nat
  sent_ms : Nat
  total : Nat
  pad : List Nat
deriving DecidableEq, Repr

/-- The per-run receiver statistics accumulator (`Stats` in
`src/metrics.rs`), field for field. -/
structure Stats where
  seen : Finset Nat
  max_seq_seen : Int
  recv_total : Nat
  duplicates : Nat
  out_of_order : Nat
  lagged_events : Nat
  lats : List Nat
  ldhs : List Nat
  total_expected : Nat
  pr_last_ts : Option Nat
  pr_last_ratio : ℚ
  pr_acc_ms : ℚ
  pr_total_ms : ℚ
  neighbour_down : Nat
  neighbour_up : Nat
  conn_last_connected : Nat
  conn_acc_ms : ℚ
  conn_total_ms : ℚ
  downtime_started_at : Option Nat
  downtime_periods : Nat
  downtime_duration_ms : List Nat
deriving DecidableEq

/-- `Stats::default()`: every counter zero, every list empty, every option
unset (Rust's derived `Default`). -/
def Stats.init : Stats :=
  { seen := ∅
    max_seq_seen := 0
    recv_total := 0
    duplicates := 0
    out_of_order := 0
    lagged_events := 0
    lats := []
    ldhs := []
    total_expected := 0
    pr_last_ts := none
    pr_last_ratio := 0
    pr_acc_ms := 0
    pr_total_ms := 0
    neighbour_down := 0
    neighbour_up := 0
    conn_last_connected := 0
    conn_acc_ms := 0
    conn_total_ms := 0
    downtime_started_at := none
    downtime_periods := 0
    downtime_duration_ms := [] }

/-- `Stats::record` (src/metrics.rs lines 153-179): record a successfully
decoded `DataMsg`.  `ldh` is the last-delivery-hop value (already widened
from `u16` to `u64` by the caller side `h as u64`), `recv_ts_ms` the local
receive timestamp. -/
def Stats.record (s : Stats) (message : DataMsg) (ldh : Option Nat)
    (recv_ts_ms : Nat) : Stats :=
  -- total_expected = total_expected.max(message.total); recv_total += 1
  let s := { s with total_expected := max s.total_expected message.total
                    recv_total := s.recv_total + 1 }
  -- if !seen.insert(seq) { duplicates += 1 }
  let s :=
    if message.seq ∈ s.seen then
      { s with duplicates := s.duplicates + 1, seen := insert message.seq s.seen }
    else
      { s with seen := insert message.seq s.seen }
  -- if (seq as i64) < max_seq_seen { out_of_order += 1 } else { max_seq_seen = seq as i64 }
  let s :=
    if toI64 message.seq < s.max_seq_seen then
      { s with out_of_order := s.out_of_order + 1 }
    else
      { s with max_seq_seen := toI64 message.seq }
  -- lats.push(recv_ts_ms.saturating_sub(sent_ms))
  let s := { s with lats := s.lats ++ [recv_ts_ms - message.sent_ms] }
  -- if let Some(h) = ldh { ldhs.push(h as u64) }
  match ldh with
  | some h => { s with ldhs := s.ldhs ++ [h] }
  | none => s

/-- `Stats::note_lagged`. -/
def Stats.note_lagged (s : Stats) : Stats :=
  { s with lagged_events := s.lagged_events + 1 }

/-- `Stats::note_neighbour_down`. -/
def Stats.note_neighbour_down (s : Stats) : Stats :=
  { s with neighbour_down := s.neighbour_down + 1 }

/-- `Stats::note_neighbour_up`. -/
def Stats.note_neighbour_up (s : Stats) : Stats :=
  { s with neighbour_up := s.neighbour_up + 1 }

/-- `Stats::record_peer_view` (src/metrics.rs lines 200-236): record a
snapshot of peer connectivity/reachability, maintaining time-weighted
averages and downtime intervals.  `ts_ms.saturating_sub(prev_ts)` is `Nat`
subtraction. -/
def Stats.record_peer_view (s : Stats) (ts_ms connected reachable : Nat) :
    Stats :=
  let ratio : ℚ := if connected = 0 then 1 else (reachable : ℚ) / (connected : ℚ)
  -- if let Some(prev_ts) = pr_last_ts { fold the previous sample forward }
  let s :=
    match s.pr_last_ts with
    | some prev_ts =>
      let dur : ℚ := ((ts_ms - prev_ts : Nat) : ℚ)
      { s with pr_acc_ms := s.pr_acc_ms + dur * s.pr_last_ratio
               pr_total_ms := s.pr_total_ms + dur
               conn_acc_ms := s.conn_acc_ms + dur * (s.conn_last_connected : ℚ)
               conn_total_ms := s.conn_total_ms + dur }
    | none => s
  -- if conn_last_connected > 0 && connected == 0 { open a downtime period }
  let s :=
    if 0 < s.conn_last_connected ∧ connected = 0 then
      { s with downtime_started_at := some ts_ms
               downtime_periods := s.downtime_periods + 1 }
    else s
  -- if conn_last_connected == 0 && connected > 0 { close it, record duration }
  let s :=
    if s.conn_last_connected = 0 ∧ 0 < connected then
      match s.downtime_started_at with
      | some start =>
        { s with downtime_started_at := none
                 downtime_duration_ms := s.downtime_duration_ms ++ [ts_ms - start] }
      | none => s
    else s
  { s with pr_last_ts := some ts_ms
           pr_last_ratio := ratio
           conn_last_connected := connected }

/-- `Stats::quantil` (src/metrics.rs lines 239-246): nearest-rank quantile
over a sorted slice.  `((len - 1) as f64 * q).round() as usize` is modelled
as `(round ((len - 1 : ℚ) * q)).toNat` — `round` rounds halves up, which for
the non-negative indices that arise agrees with `f64::round` (half away from
zero), and `Int.toNat` saturates negatives to `0` exactly like Rust's
float-to-`usize` cast.  `sorted.get(idx).copied()` is `List.get?`. -/
def quantil (sorted : List Nat) (q : ℚ) : Option Nat :=
  if sorted.isEmpty then none
  else sorted.get? (round (((sorted.length : ℚ) - 1) * q)).toNat

/-- `sort_unstable` on a `Vec<u64>`: the sorted permutation.  For natural
numbers an unstable sort and a stable sort produce the same list. -/
def sortNat (l : List Nat) : List Nat :=
  l.mergeSort (fun a b => decide (a ≤ b))

/-- Final summarized metrics for one receiver run (`Summary` in
`src/metrics.rs` lines 96-146), field for field. -/
structure Summary where
  received_unique : Nat
  recv_total : Nat
  total_expected : Nat
  delivery_rate : ℚ
  duplicate_rate : ℚ
  duplicates : Nat
  out_of_order : Nat
  lagged_events : Nat
  lat_min : Option Nat
  lat_p50 : Option Nat
  lat_p90 : Option Nat
  lat_p99 : Option Nat
  lat_max : Option Nat
  ldh_min : Option Nat
  ldh_p50 : Option Nat
  ldh_p90 : Option Nat
  ldh_p99 : Option Nat
  ldh_max : Option Nat
  pr_avg_ratio : Option ℚ
  avg_connected_peers : Option ℚ
  downtime_total_ms : Nat
  downtime_periods : Nat
  downtime_p50_ms : Option Nat
  downtime_p90_ms : Option Nat
  downtime_max_ms : Option Nat
  neighbour_down : Nat
  neighbour_up : Nat
  joined : Bool
  join_wait_ms : Nat
  saw_test : Bool
  timed_out_no_data : Bool
deriving DecidableEq

/-- The JSON keys of the serialized `Summary`, in declaration order — serde's
derived `Serialize` emits exactly the struct's field names
(src/metrics.rs lines 96-146). -/
def summaryFields : List String :=
  ["received_unique", "recv_total", "total_expected", "delivery_rate",
   "duplicate_rate", "duplicates", "out_of_order",
   "lagged_events", "lat_min", "lat_p50", "lat_p90", "lat_p99", "lat_max",
   "ldh_min", "ldh_p50", "ldh_p90", "ldh_p99", "ldh_max",
   "pr_avg_ratio", "avg_connected_peers",
   "downtime_total_ms", "downtime_periods", "downtime_p50_ms",
   "downtime_p90_ms", "downtime_max_ms",
   "neighbour_down", "neighbour_up",
   "joined", "join_wait_ms", "saw_test", "timed_out_no_data"]

/-- `Stats::summarize` (src/metrics.rs lines 252-363).  The Rust method
mutates `self` and calls `now_ms()` once to finalize the open time-weighted
window; the embedding takes that clock reading as the explicit argument
`now` and returns the produced `Summary`. -/
def Stats.summarize (s : Stats) (now : Nat) : Summary :=
  let lats := sortNat s.lats
  let ldhs := sortNat s.ldhs
  -- delivery
  let received_unique := s.seen.card
  let total_expected := max s.total_expected received_unique
  let delivery : ℚ :=
    if total_expected = 0 then 0
    else (received_unique : ℚ) / (total_expected : ℚ)
  -- duplicate rate
  let dup_rate : ℚ :=
    if s.recv_total = 0 then 0
    else (s.duplicates : ℚ) / (s.recv_total : ℚ)
  -- finalize peer reachability / connectivity / open downtime interval
  let fin :
      ℚ × ℚ × ℚ × ℚ × List Nat :=
    match s.pr_last_ts with
    | some prev_ts =>
      let dur : ℚ := ((now - prev_ts : Nat) : ℚ)
      let dl :=
        match s.downtime_started_at with
        | some start => s.downtime_duration_ms ++ [now - start]
        | none => s.downtime_duration_ms
      (s.pr_acc_ms + dur * s.pr_last_ratio, s.pr_total_ms + dur,
       s.conn_acc_ms + dur * (s.conn_last_connected : ℚ),
       s.conn_total_ms + dur, dl)
    | none =>
      (s.pr_acc_ms, s.pr_total_ms, s.conn_acc_ms, s.conn_total_ms,
       s.downtime_duration_ms)
  let pr_avg : Option ℚ :=
    if 0 < fin.2.1 then some (fin.1 / fin.2.1) else none
  let avg_connected_peers : Option ℚ :=
    if 0 < fin.2.2.2.1 then some (fin.2.2.1 / fin.2.2.2.1) else none
  -- downtime stats
  let downtime_sorted := sortNat fin.2.2.2.2
  let downtime_total_ms := downtime_sorted.sum
  { received_unique := received_unique
    recv_total := s.recv_total
    total_expected := total_expected
    delivery_rate := delivery
    duplicate_rate := dup_rate
    duplicates := s.duplicates
    out_of_order := s.out_of_order
    lagged_events := s.lagged_events
    lat_min := lats.head?
    lat_p50 := quantil lats (1/2)
    lat_p90 := quantil lats (9/10)
    lat_p99 := quantil lats (99/100)
    lat_max := lats.getLast?
    ldh_min := ldhs.head?
    ldh_p50 := quantil ldhs (1/2)
    ldh_p90 := quantil ldhs (9/10)
    ldh_p99 := quantil ldhs (99/100)
    ldh_max := ldhs.getLast?
    pr_avg_ratio := pr_avg
    avg_connected_peers := avg_connected_peers
    downtime_total_ms := downtime_total_ms
    downtime_periods := s.downtime_periods
    downtime_p50_ms := quantil downtime_sorted (1/2)
    downtime_p90_ms := quantil downtime_sorted (9/10)
    downtime_max_ms := downtime_sorted.getLast?
    neighbour_down := s.neighbour_down
    neighbour_up := s.neighbour_up
    joined := false
    join_wait_ms := 0
    saw_test := false
    timed_out_no_data := false }

/-!
The receiver loop of `src/transport.rs` calls `Stats::note_disconnect(ts)`
and `Stats::note_reconnect()` and consumes `metrics::TransportEvent`, none of
which appear in the `metrics.rs` under `src/` — that part of the repository's
metrics module is missing from the snapshot.  The `StatsX` layer below models
the missing reconnect-time machinery from the spec and wraps the embedded
`Stats` without altering it.
-/

/-- Modelled from the spec: the reconnect-time state missing from the
`metrics.rs` under `src/` (the spec's Statistics Accumulator carries
"reconnect-time samples", §3, and `run_receiver` calls
`Stats::note_disconnect` / `Stats::note_reconnect`, which the snapshot does
not define).  `last_disconnect_ms` remembers the most recent disconnect;
`reconnect_ms` collects completed reconnect-time samples. -/
structure StatsX where
  base : Stats
  last_disconnect_ms : Option Nat
  reconnect_ms : List Nat
deriving DecidableEq

/-- Modelled from the spec: fresh accumulator — no disconnect pending, no
reconnect-time samples. -/
def StatsX.init : StatsX :=
  { base := Stats.init, last_disconnect_ms := none, reconnect_ms := [] }

/-- Modelled from the spec: `Stats::note_disconnect(ts)` (missing from the
`metrics.rs` under `src/`; called by `run_receiver` on a `Disconnect`
event).  Counts the membership-down event and remembers its timestamp as the
most recent disconnect, so that the next valid data message can record the
elapsed reconnect time (spec §4.3 PeerDown, §3, glossary "Reconnect
time"). -/
def StatsX.note_disconnect (s : StatsX) (ts : Nat) : StatsX :=
  { s with base := s.base.note_neighbour_down
           last_disconnect_ms := some ts }

/-- Modelled from the spec: `Stats::note_reconnect()` (missing from the
`metrics.rs` under `src/`; called by `run_receiver` on a `Reconnect`
event).  Counts the membership-up event; per the spec the reconnect-time
sample is recorded by the *next valid data message*, not by this event
(spec §4.3 PeerUp, §8, glossary), so the pending disconnect timestamp is
left in place. -/
def StatsX.note_reconnect (s : StatsX) : StatsX :=
  { s with base := s.base.note_neighbour_up }

/-- Modelled from the spec: the data-message path of the accumulator with
reconnect-time measurement.  It performs exactly `Stats::record` on the
embedded base state and, when a disconnect is pending, additionally records
`recv_ts - last disconnect` as a reconnect-time sample — "elapsed time from
a disconnect to the next valid data message received afterward"
(glossary; §8: disconnect at `t=100`, next valid data message at `t=700`
gives a sample of `600`). -/
def StatsX.record (s : StatsX) (message : DataMsg) (ldh : Option Nat)
    (recv_ts_ms : Nat) : StatsX :=
  let b := s.base.record message ldh recv_ts_ms
  match s.last_disconnect_ms with
  | some d =>
    { base := b
      last_disconnect_ms := none
      reconnect_ms := s.reconnect_ms ++ [recv_ts_ms - d] }
  | none => { s with base := b }

/-- Lift of `Stats::note_lagged` to the extended accumulator. -/
def StatsX.note_lagged (s : StatsX) : StatsX :=
  { s with base := s.base.note_lagged }

/-- Lift of `Stats::record_peer_view` to the extended accumulator. -/
def StatsX.record_peer_view (s : StatsX) (ts_ms connected reachable : Nat) :
    StatsX :=
  { s with base := s.base.record_peer_view ts_ms connected reachable }

/-!
Receiver loop (`run_receiver`, src/transport.rs lines 371-527).

One loop iteration either services the 50 ms tick or handles one transport
event, and then performs the termination check.  The embedding feeds the
loop a finite schedule of iterations; each iteration carries the event (or
tick) it services, the `now_ms()` reading used inside the event handler
(`recv_ts` / `ts`), and the `now_ms()` reading used by the termination
check.  Message payload bytes are opaque to the loop except through
`postcard::from_bytes`, so an incoming message is modelled directly by its
decode result (`none` = undecodable noise, silently ignored).
-/

/-- `metrics::TransportEvent` as consumed by the receiver loop, with the
payload replaced by its decode result, plus the two non-event outcomes of
`transport.next()` (an error item, and end of stream). -/
inductive RInput where
  | tick
  | msg (m : Option DataMsg) (ldh : Option Nat)
  | lagged
  | disconnect
  | reconnect
  | errEv
  | closed
deriving DecidableEq

/-- One iteration of the receiver loop: the input serviced, the clock
reading used while handling it (`te`), and the clock reading used by the
termination check (`tc`). -/
structure RStep where
  input : RInput
  te : Nat
  tc : Nat
deriving DecidableEq

/-- The local state of `run_receiver`. -/
structure RState where
  start_ms : Nat
  last_valid_ms : Nat
  stats : StatsX
  current_test : Option Nat
  connected_peers : Nat
deriving DecidableEq

/-- Initialization of `run_receiver`: `last_valid_ms = start_ms`, default
stats, no active test, zero connected peers. -/
def RState.start (start_ms : Nat) : RState :=
  { start_ms := start_ms
    last_valid_ms := start_ms
    stats := StatsX.init
    current_test := none
    connected_peers := 0 }

/-- Event handling of one receiver-loop iteration (the `match event` in
`run_receiver`).  Returns the new state and whether the loop `break`s
immediately (end of stream).  Log writes are external output and are not
part of the state. -/
def handleInput (st : RState) (inp : RInput) (te : Nat) : RState × Bool :=
  match inp with
  | .tick => (st, false)
  | .msg m ldh =>
    match m with
    | none => (st, false)
    | some m =>
      -- if current_test.is_none() { current_test = Some(m.test_id) }
      let ct := if st.current_test = none then some m.test_id else st.current_test
      -- if Some(m.test_id) == current_test { record }
      if some m.test_id = ct then
        ({ st with current_test := ct
                   last_valid_ms := te
                   stats := st.stats.record m ldh te }, false)
      else
        ({ st with current_test := ct }, false)
  | .lagged => ({ st with stats := st.stats.note_lagged }, false)
  | .disconnect =>
    -- if connected_peers > 0 { connected_peers -= 1 }  (Nat subtraction)
    let cp := st.connected_peers - 1
    ({ st with connected_peers := cp
               stats := (st.stats.record_peer_view te cp cp).note_disconnect te },
     false)
  | .reconnect =>
    let cp := st.connected_peers + 1
    ({ st with connected_peers := cp
               stats := (st.stats.record_peer_view te cp cp).note_reconnect },
     false)
  | .errEv => (st, false)
  | .closed => (st, true)

/-- The per-iteration termination check of `run_receiver`
(src/transport.rs lines 506-517), evaluated after event handling:
stop if a test has been seen and the idle window expired, or if no test was
ever seen and the same window expired relative to the start time. -/
def stopCheck (st : RState) (idle now : Nat) : Bool :=
  (decide (0 < st.stats.base.total_expected) &&
    decide (idle < now - st.last_valid_ms)) ||
  (decide (st.stats.base.total_expected = 0) &&
    decide (idle < now - st.start_ms))

/-- The receiver main loop over a finite schedule of iterations: handle the
input, break on end of stream, otherwise break when the termination check
fires; the schedule running out corresponds to the run being cut off with
no further iterations. -/
def runLoop (idle : Nat) : RState → List RStep → RState
  | st, [] => st
  | st, step :: rest =>
    if (handleInput st step.input step.te).2 then
      (handleInput st step.input step.te).1
    else if stopCheck (handleInput st step.input step.te).1 idle step.tc then
      (handleInput st step.input step.te).1
    else runLoop idle (handleInput st step.input step.te).1 rest

/-- `run_receiver` end to end: run the loop from a fresh state, summarize,
and set the run-outcome flags (src/transport.rs lines 519-524):
`saw_test = total_expected > 0`, `timed_out_no_data = !saw_test`. -/
def runReceiver (idle start_ms : Nat) (steps : List RStep) (joined : Bool)
    (join_wait_ms : Nat) (now : Nat) : Summary :=
  let st := runLoop idle (RState.start start_ms) steps
  let s := st.stats.base.summarize now
  { s with joined := joined
           join_wait_ms := join_wait_ms
           saw_test := decide (0 < s.total_expected)
           timed_out_no_data := !decide (0 < s.total_expected) }

/-- A sequence of `Stats::record` calls starting from an arbitrary
accumulator: each list entry carries the message, the `ldh` argument and the
receive timestamp. -/
def recordAll (s : Stats) (calls : List (DataMsg × Option Nat × Nat)) :
    Stats :=
  calls.foldl (fun a c => a.record c.1 c.2.1 c.2.2) s

/-- Whether a transport input is a valid (decodable) data message. -/
def isValidMsg : RInput → Bool
  | .msg (some _) _ => true
  | _ => false

/-- The elapsed time folded forward by `record_peer_view`: zero on the very
first call (no previous sample), otherwise the saturating difference to the
previous sample's timestamp. -/
def prevDur (s : Stats) (ts : Nat) : ℚ :=
  match s.pr_last_ts with
  | some prev => ((ts - prev : Nat) : ℚ)
  | none => 0

/-- The three-call downtime scenario of the spec: up at `t=0`, down at
`t=1000`, up again at `t=3000`. -/
def downtimeTrace : Stats :=
  ((Stats.init.record_peer_view 0 1 1).record_peer_view 1000 0 0).record_peer_view 3000 1 1

/-! ### Structural lemmas about the embedded operations -/

/-- Closed form of one `Stats::record` call. -/
theorem Stats.record_eq (s : Stats) (m : DataMsg) (ldh : Option Nat)
    (ts : Nat) :
    s.record m ldh ts =
      { s with
        total_expected := max s.total_expected m.total
        recv_total := s.recv_total + 1
        seen := insert m.seq s.seen
        duplicates := if m.seq ∈ s.seen then s.duplicates + 1 else s.duplicates
        out_of_order :=
          if toI64 m.seq < s.max_seq_seen then s.out_of_order + 1
          else s.out_of_order
        max_seq_seen :=
          if toI64 m.seq < s.max_seq_seen then s.max_seq_seen else toI64 m.seq
        lats := s.lats ++ [ts - m.sent_ms]
        ldhs := s.ldhs ++ (match ldh with | some h => [h] | none => []) } := by
  cases ldh <;>
    · unfold Stats.record
      by_cases h1 : m.seq ∈ s.seen <;>
        by_cases h2 : toI64 m.seq < s.max_seq_seen <;>
          simp [h1, h2]

/-- Closed form of one `Stats::record_peer_view` call.  When no previous
sample exists `prevDur` is `0`, and adding `0`-weighted terms coincides with
the source's skipping of the accumulation step. -/
theorem Stats.record_peer_view_eq (s : Stats) (ts c r : Nat) :
    s.record_peer_view ts c r =
      { s with
        pr_acc_ms := s.pr_acc_ms + prevDur s ts * s.pr_last_ratio
        pr_total_ms := s.pr_total_ms + prevDur s ts
        conn_acc_ms := s.conn_acc_ms + prevDur s ts * (s.conn_last_connected : ℚ)
        conn_total_ms := s.conn_total_ms + prevDur s ts
        downtime_started_at :=
          if 0 < s.conn_last_connected ∧ c = 0 then some ts
          else if s.conn_last_connected = 0 ∧ 0 < c then none
          else s.downtime_started_at
        downtime_periods :=
          s.downtime_periods + if 0 < s.conn_last_connected ∧ c = 0 then 1 else 0
        downtime_duration_ms :=
          s.downtime_duration_ms ++
            (if s.conn_last_connected = 0 ∧ 0 < c then
              (match s.downtime_started_at with
               | some start => [ts - start]
               | none => [])
            else [])
        pr_last_ts := some ts
        pr_last_ratio := if c = 0 then 1 else (r : ℚ) / (c : ℚ)
        conn_last_connected := c } := by
  by_cases h1 : 0 < s.conn_last_connected ∧ c = 0 <;>
    by_cases h2 : s.conn_last_connected = 0 ∧ 0 < c
  · omega
  all_goals
    cases hp : s.pr_last_ts <;> cases hd : s.downtime_started_at <;>
      simp [Stats.record_peer_view, prevDur, hp, hd, h1, h2]

/-- `toI64` is the identity on values below `2^63`. -/
theorem toI64_eq_of_lt (n : Nat) (h : n < 2 ^ 63) : toI64 n = (n : Int) := by
  have h64 : n < 2 ^ 64 := lt_trans h (by norm_num)
  rw [toI64, Nat.mod_eq_of_lt h64, if_pos h]

/-! ### Claims -/

/-- C4.  For every accumulator state and every sequence number already
present in the seen-set, one further `record` call with that `seq` leaves
`received_unique` (the seen-set cardinality) unchanged and increments
`duplicates` by exactly 1; and a `record` call increments the duplicate
counter if and only if `seq` was already present in the seen-set before the
insertion. -/
theorem record_duplicate_iff_seen (s : Stats) (m : DataMsg)
    (ldh : Option Nat) (ts : Nat) :
    ((s.record m ldh ts).duplicates = s.duplicates + 1 ↔ m.seq ∈ s.seen) ∧
    (m.seq ∈ s.seen →
      (s.record m ldh ts).seen.card = s.seen.card ∧
      (s.record m ldh ts).duplicates = s.duplicates + 1) := by
  constructor
  · rw [Stats.record_eq]
    by_cases h : m.seq ∈ s.seen <;> simp [h]
  · intro h
    rw [Stats.record_eq]
    simp [h, Finset.insert_eq_self.2 h]

/-- Witness for C4: replaying `seq = 5` after it has been seen keeps the
unique count at 1 and pushes the duplicate counter to 1. -/
theorem record_duplicate_iff_seen_witness :
    ((Stats.init.record ⟨0, 5, 0, 10, []⟩ none 0).record ⟨0, 5, 0, 10, []⟩
        none 1).seen.card =
      (Stats.init.record ⟨0, 5, 0, 10, []⟩ none 0).seen.card ∧
    ((Stats.init.record ⟨0, 5, 0, 10, []⟩ none 0).record ⟨0, 5, 0, 10, []⟩
        none 1).duplicates =
      (Stats.init.record ⟨0, 5, 0, 10, []⟩ none 0).duplicates + 1 :=
  (record_duplicate_iff_seen _ _ _ _).2 (by decide)

/-- C5, counterexample.  The claim reads the out-of-order test as comparing
the message's `seq` value with the high-water mark, but `Stats::record`
compares `message.seq as i64`: at `seq = 2^63` (a valid `u64`) the cast
wraps to a negative value, so on a fresh accumulator (`max_seq_seen = 0`)
the call increments `out_of_order` even though `seq` is not below the
high-water mark, and leaves `max_seq_seen` at 0 instead of updating it to
`seq`. -/
theorem record_out_of_order_wrap_counterexample :
    ¬ ((2 ^ 63 : Nat) : Int) < Stats.init.max_seq_seen ∧
    (Stats.init.record ⟨0, 2 ^ 63, 0, 0, []⟩ none 0).out_of_order =
      Stats.init.out_of_order + 1 ∧
    (Stats.init.record ⟨0, 2 ^ 63, 0, 0, []⟩ none 0).max_seq_seen ≠
      ((2 ^ 63 : Nat) : Int) := by
  refine ⟨by decide, by decide, by decide⟩

/-- C5, amended: for every `record` call whose `seq` is below `2^63` (so the
`u64 → i64` cast does not wrap), `out_of_order` is incremented if and only
if `seq` is strictly below `max_seq_seen`, and otherwise `max_seq_seen` is
updated to `seq`; hence a replayed already-seen sequence number below the
high-water mark is counted as both a duplicate and out-of-order in the same
call. -/
theorem record_out_of_order_iff (s : Stats) (m : DataMsg) (ldh : Option Nat)
    (ts : Nat) (hseq : m.seq < 2 ^ 63) :
    ((s.record m ldh ts).out_of_order = s.out_of_order + 1 ↔
      (m.seq : Int) < s.max_seq_seen) ∧
    ((m.seq : Int) < s.max_seq_seen →
      (s.record m ldh ts).max_seq_seen = s.max_seq_seen) ∧
    (¬ (m.seq : Int) < s.max_seq_seen →
      (s.record m ldh ts).max_seq_seen = (m.seq : Int)) ∧
    (m.seq ∈ s.seen → (m.seq : Int) < s.max_seq_seen →
      (s.record m ldh ts).duplicates = s.duplicates + 1 ∧
      (s.record m ldh ts).out_of_order = s.out_of_order + 1) := by
  rw [Stats.record_eq, toI64_eq_of_lt m.seq hseq]
  refine ⟨?_, ?_, ?_, ?_⟩
  · by_cases h : (m.seq : Int) < s.max_seq_seen <;> simp [h]
  · intro h; simp [h]
  · intro h; simp [h]
  · intro hmem h; simp [hmem, h]

/-- Witness for C5 (amended): with high-water mark 5, replaying the
already-seen `seq = 3` increments both `duplicates` and `out_of_order`. -/
theorem record_out_of_order_iff_witness :
    (((Stats.init.record ⟨0, 5, 0, 10, []⟩ none 0).record ⟨0, 3, 0, 10, []⟩
          none 1).record ⟨0, 3, 0, 10, []⟩ none 2).duplicates =
      ((Stats.init.record ⟨0, 5, 0, 10, []⟩ none 0).record ⟨0, 3, 0, 10, []⟩
          none 1).duplicates + 1 ∧
    (((Stats.init.record ⟨0, 5, 0, 10, []⟩ none 0).record ⟨0, 3, 0, 10, []⟩
          none 1).record ⟨0, 3, 0, 10, []⟩ none 2).out_of_order =
      ((Stats.init.record ⟨0, 5, 0, 10, []⟩ none 0).record ⟨0, 3, 0, 10, []⟩
          none 1).out_of_order + 1 :=
  (record_out_of_order_iff _ ⟨0, 3, 0, 10, []⟩ none 2 (by norm_num)).2.2.2
    (by decide) (by decide)

/-- C10.  Invariant preserved by every `record` call from the default state:
the seen-set cardinality plus the duplicates counter equals the
received-total counter, and the produced `Summary` satisfies
`received_unique + duplicates = recv_total`. -/
theorem seen_card_add_duplicates_eq_recv_total
    (calls : List (DataMsg × Option Nat × Nat)) :
    (recordAll Stats.init calls).seen.card +
        (recordAll Stats.init calls).duplicates =
      (recordAll Stats.init calls).recv_total ∧
    ∀ now : Nat,
      ((recordAll Stats.init calls).summarize now).received_unique +
          ((recordAll Stats.init calls).summarize now).duplicates =
        ((recordAll Stats.init calls).summarize now).recv_total := by
  have step : ∀ (s : Stats) (m : DataMsg) (ldh : Option Nat) (ts : Nat),
      s.seen.card + s.duplicates = s.recv_total →
      (s.record m ldh ts).seen.card + (s.record m ldh ts).duplicates =
        (s.record m ldh ts).recv_total := by
    intro s m ldh ts h
    rw [Stats.record_eq]
    by_cases hm : m.seq ∈ s.seen
    · simp [hm, Finset.insert_eq_self.2 hm]; omega
    · simp [hm, Finset.card_insert_of_not_mem hm]; omega
  have main : ∀ (calls : List (DataMsg × Option Nat × Nat)) (s : Stats),
      s.seen.card + s.duplicates = s.recv_total →
      (recordAll s calls).seen.card + (recordAll s calls).duplicates =
        (recordAll s calls).recv_total := by
    intro calls
    induction calls with
    | nil => intro s h; simpa [recordAll] using h
    | cons c rest ih =>
      intro s h
      simpa [recordAll] using ih _ (step s c.1 c.2.1 c.2.2 h)
  have base := main calls Stats.init (by simp [Stats.init])
  exact ⟨base, fun now => by simpa [Stats.summarize] using base⟩

/-- The seen-set after a sequence of `record` calls: the initial seen-set
united with the sequence numbers of the recorded messages. -/
theorem recordAll_seen (calls : List (DataMsg × Option Nat × Nat))
    (s : Stats) :
    (recordAll s calls).seen =
      s.seen ∪ (calls.map fun c => c.1.seq).toFinset := by
  induction calls generalizing s with
  | nil => simp [recordAll]
  | cons c rest ih =>
    have h := ih (s.record c.1 c.2.1 c.2.2)
    rw [recordAll] at h ⊢
    simp only [List.foldl_cons] at h ⊢
    rw [h, Stats.record_eq]
    simp [Finset.insert_union, Finset.union_insert]

/-- The expected-total high-water mark after a sequence of `record` calls. -/
theorem recordAll_total_expected (calls : List (DataMsg × Option Nat × Nat))
    (s : Stats) :
    (recordAll s calls).total_expected =
      calls.foldl (fun a c => max a c.1.total) s.total_expected := by
  induction calls generalizing s with
  | nil => simp [recordAll]
  | cons c rest ih =>
    have h := ih (s.record c.1 c.2.1 c.2.2)
    rw [recordAll] at h ⊢
    simp only [List.foldl_cons] at h ⊢
    rw [h, Stats.record_eq]

/-- Folding `max` over a list of equal totals. -/
theorem foldl_max_const (T : Nat) (l : List (DataMsg × Option Nat × Nat))
    (hT : ∀ c ∈ l, c.1.total = T) (a : Nat) (ha : a ≤ T) (hne : l ≠ []) :
    l.foldl (fun a c => max a c.1.total) a = T := by
  induction l generalizing a with
  | nil => exact absurd rfl hne
  | cons c rest ih =>
    have hc : c.1.total = T := hT c (by simp)
    rcases Decidable.em (rest = []) with h | h
    · simp [h, hc, Nat.max_eq_right ha]
    · have := ih (fun x hx => hT x (by simp [hx])) (max a c.1.total)
        (by simp [hc]; omega) h
      simpa using this

/-- The delivery-rate computation of `summarize`, as a closed formula over
the accumulator. -/
theorem summarize_delivery_formula (s : Stats) (now : Nat) :
    (s.summarize now).delivery_rate =
      if max s.total_expected s.seen.card = 0 then 0
      else (s.seen.card : ℚ) / ((max s.total_expected s.seen.card : Nat) : ℚ) :=
  rfl

/-- C3.  `summarize()` computes `delivery_rate` as
`unique_received / max(total_expected, unique_received)` (0 when both are
0), and consequently for any stream of messages carrying the same `total`
whose distinct sequence numbers number `N` — duplicates included in the
stream — the rate is `N / max(total, N)`. -/
theorem summarize_delivery_rate (s : Stats) (now : Nat) :
    ((s.summarize now).delivery_rate =
      if max s.total_expected s.seen.card = 0 then 0
      else (s.seen.card : ℚ) / ((max s.total_expected s.seen.card : Nat) : ℚ)) ∧
    (s.total_expected = 0 → s.seen = ∅ → (s.summarize now).delivery_rate = 0) ∧
    (∀ (T : Nat) (calls : List (DataMsg × Option Nat × Nat)),
      (∀ c ∈ calls, c.1.total = T) →
      ((recordAll Stats.init calls).summarize now).delivery_rate =
        (if max T ((calls.map fun c => c.1.seq).toFinset.card) = 0 then 0
         else (((calls.map fun c => c.1.seq).toFinset.card : Nat) : ℚ) /
           ((max T ((calls.map fun c => c.1.seq).toFinset.card) : Nat) : ℚ))) := by
  refine ⟨summarize_delivery_formula s now, ?_, ?_⟩
  · intro h1 h2
    simp [Stats.summarize, h1, h2]
  · intro T calls hT
    have hseen : (recordAll Stats.init calls).seen =
        (calls.map fun c => c.1.seq).toFinset := by
      rw [recordAll_seen]; simp [Stats.init]
    rcases Decidable.em (calls = []) with hnil | hnil
    · subst hnil
      simp only [List.map_nil, List.toFinset_nil, Finset.card_empty]
      rw [summarize_delivery_formula]
      simp [recordAll, Stats.init]
    · have hTE : (recordAll Stats.init calls).total_expected = T := by
        rw [recordAll_total_expected]
        exact foldl_max_const T calls hT 0 (Nat.zero_le T) hnil
      rw [summarize_delivery_formula, hTE, hseen]

/-- Witness for C3: a stream with `total = 10`, two distinct sequence
numbers and one injected duplicate gives `delivery_rate = 2 / 10 = 1/5`. -/
theorem summarize_delivery_rate_witness :
    ((recordAll Stats.init
        [(⟨0, 0, 5, 10, []⟩, none, 6), (⟨0, 1, 7, 10, []⟩, none, 9),
         (⟨0, 0, 5, 10, []⟩, none, 12)]).summarize 99).delivery_rate =
      1 / 5 := by
  have h := (summarize_delivery_rate Stats.init 99).2.2 10
    [(⟨0, 0, 5, 10, []⟩, none, 6), (⟨0, 1, 7, 10, []⟩, none, 9),
     (⟨0, 0, 5, 10, []⟩, none, 12)] (by decide)
  rw [h]
  norm_num

/-- C6.  The nearest-rank quantile of a sorted nonempty list of length `n`
is the element at index `round((n-1) * q)` for any quantile `0 ≤ q ≤ 1`
(the index is always in bounds), the quantile of the empty list is absent,
and on `[1,2,3,4,5]` the function returns `3` at `q = 0.5` and `5` at
`q = 0.9`. -/
theorem quantil_nearest_rank (sorted : List Nat) (q : ℚ)
    (hne : sorted ≠ []) (hq0 : 0 ≤ q) (hq1 : q ≤ 1) :
    (quantil [] q = none) ∧
    (∃ hlt : (round (((sorted.length : ℚ) - 1) * q)).toNat < sorted.length,
      quantil sorted q =
        some (sorted.get
          ⟨(round (((sorted.length : ℚ) - 1) * q)).toNat, hlt⟩)) ∧
    quantil [1, 2, 3, 4, 5] (1 / 2) = some 3 ∧
    quantil [1, 2, 3, 4, 5] (9 / 10) = some 5 := by
  have hlen : 1 ≤ sorted.length := List.length_pos.2 hne
  have hx0 : (0 : ℚ) ≤ ((sorted.length : ℚ) - 1) * q := by
    apply mul_nonneg _ hq0
    have : (1 : ℚ) ≤ (sorted.length : ℚ) := by exact_mod_cast hlen
    linarith
  have hxle : ((sorted.length : ℚ) - 1) * q ≤ (sorted.length : ℚ) - 1 := by
    have : (0 : ℚ) ≤ (sorted.length : ℚ) - 1 := by
      have : (1 : ℚ) ≤ (sorted.length : ℚ) := by exact_mod_cast hlen
      linarith
    nlinarith
  have hround : (round (((sorted.length : ℚ) - 1) * q) : ℚ) ≤
      (sorted.length : ℚ) - 1 + 1 / 2 := by
    have habs := abs_sub_round (((sorted.length : ℚ) - 1) * q)
    have h1 : ((sorted.length : ℚ) - 1) * q -
        (round (((sorted.length : ℚ) - 1) * q) : ℚ) ≥ -(1 / 2) := by
      have := abs_le.1 habs
      linarith [this.1]
    linarith
  have hlt : (round (((sorted.length : ℚ) - 1) * q)).toNat < sorted.length := by
    have hcast : (round (((sorted.length : ℚ) - 1) * q) : ℚ) <
        (sorted.length : ℚ) := by linarith
    have hint : round (((sorted.length : ℚ) - 1) * q) <
        (sorted.length : Int) := by exact_mod_cast hcast
    omega
  refine ⟨by simp [quantil], ⟨hlt, ?_⟩, ?_, ?_⟩
  · rw [quantil, if_neg (by simpa using hne)]
    exact List.get?_eq_get hlt
  · have h : round ((((5 : Nat) : ℚ) - 1) * (1 / 2)) = 2 := by
      norm_num [round_eq]
    simp only [quantil, List.length_cons, List.length_nil]
    norm_num [h]
    decide
  · have h : round ((18 : ℚ) / 5) = 4 := by
      norm_num [round_eq, Int.floor_eq_iff]
    simp only [quantil, List.length_cons, List.length_nil]
    norm_num [h]
    decide

/-- Witness for C6 at `[1,2,3,4,5]`, `q = 1/2`. -/
theorem quantil_nearest_rank_witness :
    (quantil [] (1 / 2) = none) ∧
    (∃ hlt : (round (((([1, 2, 3, 4, 5] : List Nat).length : ℚ) - 1) *
          (1 / 2))).toNat < ([1, 2, 3, 4, 5] : List Nat).length,
      quantil [1, 2, 3, 4, 5] (1 / 2) =
        some (([1, 2, 3, 4, 5] : List Nat).get
          ⟨(round (((([1, 2, 3, 4, 5] : List Nat).length : ℚ) - 1) *
              (1 / 2))).toNat, hlt⟩)) ∧
    quantil [1, 2, 3, 4, 5] (1 / 2) = some 3 ∧
    quantil [1, 2, 3, 4, 5] (9 / 10) = some 5 :=
  quantil_nearest_rank [1, 2, 3, 4, 5] (1 / 2) (by decide) (by norm_num)
    (by norm_num)

/-- C7.  `record_peer_view(ts, connected, reachable)` stores the ratio
`1` when `connected = 0` and `reachable / connected` otherwise, and whenever
a previous sample exists it first folds that sample across the elapsed
interval — adding `(ts - prev_ts) * prev_ratio` to the reachability
numerator and `(ts - prev_ts)` to the denominator, and identically
accumulating the time-weighted mean of connected peers — before storing the
new sample as current. -/
theorem record_peer_view_time_weighting (s : Stats)
    (ts connected reachable : Nat) :
    ((s.record_peer_view ts connected reachable).pr_last_ratio =
      if connected = 0 then 1 else (reachable : ℚ) / (connected : ℚ)) ∧
    ((s.record_peer_view ts connected reachable).pr_last_ts = some ts) ∧
    ((s.record_peer_view ts connected reachable).conn_last_connected =
      connected) ∧
    (∀ prev_ts : Nat, s.pr_last_ts = some prev_ts →
      (s.record_peer_view ts connected reachable).pr_acc_ms =
        s.pr_acc_ms + ((ts - prev_ts : Nat) : ℚ) * s.pr_last_ratio ∧
      (s.record_peer_view ts connected reachable).pr_total_ms =
        s.pr_total_ms + ((ts - prev_ts : Nat) : ℚ) ∧
      (s.record_peer_view ts connected reachable).conn_acc_ms =
        s.conn_acc_ms + ((ts - prev_ts : Nat) : ℚ) * (s.conn_last_connected : ℚ) ∧
      (s.record_peer_view ts connected reachable).conn_total_ms =
        s.conn_total_ms + ((ts - prev_ts : Nat) : ℚ)) := by
  rw [Stats.record_peer_view_eq]
  refine ⟨rfl, rfl, rfl, ?_⟩
  intro prev_ts hprev
  simp [prevDur, hprev]

/-- Witness for C7: previous sample at `t = 10` with ratio stored from
`(connected, reachable) = (2, 1)`; the call at `t = 30` folds 20 ms at
ratio `1/2` forward. -/
theorem record_peer_view_time_weighting_witness :
    ((Stats.init.record_peer_view 10 2 1).record_peer_view 30 3 3).pr_acc_ms =
        (Stats.init.record_peer_view 10 2 1).pr_acc_ms +
          ((30 - 10 : Nat) : ℚ) *
            (Stats.init.record_peer_view 10 2 1).pr_last_ratio ∧
    ((Stats.init.record_peer_view 10 2 1).record_peer_view 30 3 3).pr_total_ms =
        (Stats.init.record_peer_view 10 2 1).pr_total_ms +
          ((30 - 10 : Nat) : ℚ) ∧
    ((Stats.init.record_peer_view 10 2 1).record_peer_view 30 3 3).conn_acc_ms =
        (Stats.init.record_peer_view 10 2 1).conn_acc_ms +
          ((30 - 10 : Nat) : ℚ) *
            (((Stats.init.record_peer_view 10 2 1).conn_last_connected : Nat) : ℚ) ∧
    ((Stats.init.record_peer_view 10 2 1).record_peer_view 30 3 3).conn_total_ms =
        (Stats.init.record_peer_view 10 2 1).conn_total_ms +
          ((30 - 10 : Nat) : ℚ) :=
  (record_peer_view_time_weighting (Stats.init.record_peer_view 10 2 1)
      30 3 3).2.2.2 10
    (by rw [Stats.record_peer_view_eq])

/-- C8.  The call sequence `record_peer_view(0,1,1)`,
`record_peer_view(1000,0,0)`, `record_peer_view(3000,1,1)` on a fresh
accumulator yields `downtime_periods = 1` and the single downtime duration
`2000`; in general one call opens a downtime interval and increments the
period counter exactly when the connected count transitions from positive
to zero, and appends the closed interval's duration exactly when the count
transitions from zero to positive while an interval is open. -/
theorem record_peer_view_downtime :
    (downtimeTrace.downtime_periods = 1 ∧
      downtimeTrace.downtime_duration_ms = [2000]) ∧
    (∀ (s : Stats) (ts c r : Nat),
      (s.record_peer_view ts c r).downtime_periods =
        s.downtime_periods +
          (if 0 < s.conn_last_connected ∧ c = 0 then 1 else 0)) ∧
    (∀ (s : Stats) (ts c r : Nat),
      (s.record_peer_view ts c r).downtime_duration_ms =
        s.downtime_duration_ms ++
          (if s.conn_last_connected = 0 ∧ 0 < c then
            (match s.downtime_started_at with
             | some start => [ts - start]
             | none => [])
          else [])) ∧
    (∀ (s : Stats) (ts c r : Nat),
      (s.record_peer_view ts c r).downtime_started_at =
        (if 0 < s.conn_last_connected ∧ c = 0 then some ts
         else if s.conn_last_connected = 0 ∧ 0 < c then none
         else s.downtime_started_at)) := by
  refine ⟨⟨by decide, by decide⟩, ?_, ?_, ?_⟩ <;>
    · intro s ts c r
      rw [Stats.record_peer_view_eq]

/-- C1, counterexample.  The claim says the produced `Summary` carries the
convergence time as `convergence_time_ms`, but the `Summary` struct of
`src/metrics.rs` (lines 96-146) has no such field: its serde field set is
`summaryFields`, and `convergence_time_ms` is not among them. -/
theorem no_convergence_field_counterexample :
    "convergence_time_ms" ∉ summaryFields := by decide

/-- C1, amended.  The statistics engine implements no convergence-time
detection: a `record` call — including the call at which the count of
distinct sequence numbers reaches `total_expected` — updates only the
delivery, duplicate, order, latency and hop-sample state, leaving every
other accumulator field unchanged and keeping no record of the earliest
sent timestamp; and the produced `Summary` has no `convergence_time_ms`
field. -/
theorem record_no_convergence (s : Stats) (m : DataMsg) (ldh : Option Nat)
    (ts : Nat) :
    "convergence_time_ms" ∉ summaryFields ∧
    (s.record m ldh ts).lagged_events = s.lagged_events ∧
    (s.record m ldh ts).pr_last_ts = s.pr_last_ts ∧
    (s.record m ldh ts).pr_last_ratio = s.pr_last_ratio ∧
    (s.record m ldh ts).pr_acc_ms = s.pr_acc_ms ∧
    (s.record m ldh ts).pr_total_ms = s.pr_total_ms ∧
    (s.record m ldh ts).neighbour_down = s.neighbour_down ∧
    (s.record m ldh ts).neighbour_up = s.neighbour_up ∧
    (s.record m ldh ts).conn_last_connected = s.conn_last_connected ∧
    (s.record m ldh ts).conn_acc_ms = s.conn_acc_ms ∧
    (s.record m ldh ts).conn_total_ms = s.conn_total_ms ∧
    (s.record m ldh ts).downtime_started_at = s.downtime_started_at ∧
    (s.record m ldh ts).downtime_periods = s.downtime_periods ∧
    (s.record m ldh ts).downtime_duration_ms = s.downtime_duration_ms := by
  rw [Stats.record_eq]
  exact ⟨by decide, rfl, rfl, rfl, rfl, rfl, rfl, rfl, rfl, rfl, rfl, rfl,
    rfl, rfl⟩

/-- C2 (the reconnect machinery is modelled from the spec, see `StatsX`).
After a disconnect recorded at `t_d`, the next valid data message recorded
at `t_m > t_d` appends exactly one reconnect-time sample `t_m - t_d` —
equal to the true elapsed time — and clears the pending disconnect; an
intervening membership-up event (`note_reconnect`) records no sample and
does not change the measured value, so the sample measures time to data
resumption, not time to the membership-up event. -/
theorem reconnect_time_to_data_resumption (s : StatsX) (m : DataMsg)
    (ldh : Option Nat) (td tm : Nat) (h : td < tm) :
    (((s.note_disconnect td).record m ldh tm).reconnect_ms =
      s.reconnect_ms ++ [tm - td]) ∧
    (((s.note_disconnect td).record m ldh tm).last_disconnect_ms = none) ∧
    ((((s.note_disconnect td).note_reconnect).record m ldh tm).reconnect_ms =
      s.reconnect_ms ++ [tm - td]) ∧
    (∀ s' : StatsX, s'.note_reconnect.reconnect_ms = s'.reconnect_ms) ∧
    ((tm - td : Nat) : Int) = (tm : Int) - (td : Int) := by
  refine ⟨rfl, rfl, rfl, fun s' => rfl, ?_⟩
  omega

/-- Witness for C2, the spec's own example: disconnect at `t = 100`, next
valid data message at `t = 700`, reconnect-time sample `600`. -/
theorem reconnect_time_to_data_resumption_witness :
    ((StatsX.init.note_disconnect 100).record ⟨0, 0, 0, 10, []⟩ none
        700).reconnect_ms = [600] := by
  have h := (reconnect_time_to_data_resumption StatsX.init ⟨0, 0, 0, 10, []⟩
    none 100 700 (by norm_num)).1
  simpa [StatsX.init] using h

/-- The data-message path of the extended accumulator performs exactly
`Stats::record` on the embedded base state. -/
theorem StatsX.record_base (s : StatsX) (m : DataMsg) (ldh : Option Nat)
    (ts : Nat) : (s.record m ldh ts).base = s.base.record m ldh ts := by
  unfold StatsX.record
  cases s.last_disconnect_ms <;> rfl

/-- `record_peer_view` leaves the delivery-side state untouched. -/
theorem record_peer_view_delivery_fields (s : Stats) (ts c r : Nat) :
    (s.record_peer_view ts c r).total_expected = s.total_expected ∧
    (s.record_peer_view ts c r).recv_total = s.recv_total ∧
    (s.record_peer_view ts c r).seen = s.seen := by
  rw [Stats.record_peer_view_eq]
  exact ⟨rfl, rfl, rfl⟩

/-- The loop `break`s at an iteration exactly when the transport stream has
closed. -/
theorem handleInput_break_iff (st : RState) (inp : RInput) (te : Nat) :
    (handleInput st inp te).2 = true ↔ inp = RInput.closed := by
  cases inp with
  | msg m ldh =>
    cases m with
    | none => simp [handleInput]
    | some mm =>
      have h2 : (handleInput st (RInput.msg (some mm) ldh) te).2 = false := by
        by_cases hn : st.current_test = none
        · simp [handleInput, hn]
        · by_cases hm : some mm.test_id = st.current_test <;>
            simp [handleInput, hn, hm]
      simp [h2]
  | _ => simp [handleInput]

/-- Handling any input other than a valid data message preserves the
run-start time and the delivery-side accumulator state. -/
theorem handleInput_no_valid (st : RState) (inp : RInput) (te : Nat)
    (h : isValidMsg inp = false) :
    (handleInput st inp te).1.start_ms = st.start_ms ∧
    (handleInput st inp te).1.stats.base.total_expected =
      st.stats.base.total_expected ∧
    (handleInput st inp te).1.stats.base.recv_total =
      st.stats.base.recv_total ∧
    (handleInput st inp te).1.stats.base.seen = st.stats.base.seen := by
  cases inp with
  | tick => exact ⟨rfl, rfl, rfl, rfl⟩
  | msg m ldh =>
    cases m with
    | none => exact ⟨rfl, rfl, rfl, rfl⟩
    | some mm => simp [isValidMsg] at h
  | lagged => exact ⟨rfl, rfl, rfl, rfl⟩
  | disconnect =>
    refine ⟨rfl, ?_, ?_, ?_⟩ <;>
      simp [handleInput, StatsX.note_disconnect, StatsX.record_peer_view,
        Stats.note_neighbour_down,
        (record_peer_view_delivery_fields st.stats.base te
          (st.connected_peers - 1) (st.connected_peers - 1)).1,
        (record_peer_view_delivery_fields st.stats.base te
          (st.connected_peers - 1) (st.connected_peers - 1)).2.1,
        (record_peer_view_delivery_fields st.stats.base te
          (st.connected_peers - 1) (st.connected_peers - 1)).2.2]
  | reconnect =>
    refine ⟨rfl, ?_, ?_, ?_⟩ <;>
      simp [handleInput, StatsX.note_reconnect, StatsX.record_peer_view,
        Stats.note_neighbour_up,
        (record_peer_view_delivery_fields st.stats.base te
          (st.connected_peers + 1) (st.connected_peers + 1)).1,
        (record_peer_view_delivery_fields st.stats.base te
          (st.connected_peers + 1) (st.connected_peers + 1)).2.1,
        (record_peer_view_delivery_fields st.stats.base te
          (st.connected_peers + 1) (st.connected_peers + 1)).2.2]
  | errEv => exact ⟨rfl, rfl, rfl, rfl⟩
  | closed => exact ⟨rfl, rfl, rfl, rfl⟩

/-- Characterization of the per-iteration termination check. -/
theorem stopCheck_eq_true_iff (st : RState) (idle now : Nat) :
    stopCheck st idle now = true ↔
      ((0 < st.stats.base.total_expected ∧
          idle < now - st.last_valid_ms) ∨
       (st.stats.base.total_expected = 0 ∧ idle < now - st.start_ms)) := by
  simp [stopCheck]

/-- Handling any input preserves the relation between the received-total
counter, the expected-total high-water mark, and the seen-set. -/
theorem handleInput_recv_relation (st : RState) (inp : RInput) (te : Nat)
    (h1 : st.stats.base.recv_total = 0 →
      st.stats.base.total_expected = 0 ∧ st.stats.base.seen = (∅ : Finset Nat))
    (h2 : 0 < st.stats.base.recv_total → st.stats.base.seen.Nonempty) :
    ((handleInput st inp te).1.stats.base.recv_total = 0 →
      (handleInput st inp te).1.stats.base.total_expected = 0 ∧
      (handleInput st inp te).1.stats.base.seen = (∅ : Finset Nat)) ∧
    (0 < (handleInput st inp te).1.stats.base.recv_total →
      (handleInput st inp te).1.stats.base.seen.Nonempty) := by
  by_cases hv : isValidMsg inp = false
  · obtain ⟨-, hT, hR, hS⟩ := handleInput_no_valid st inp te hv
    rw [hT, hR, hS]
    exact ⟨h1, h2⟩
  · cases inp with
    | msg m ldh =>
      cases m with
      | none => simp [isValidMsg] at hv
      | some mm =>
        have hrec : ∀ hst : (handleInput st (RInput.msg (some mm) ldh) te).1.stats =
            st.stats.record mm ldh te,
            ((handleInput st (RInput.msg (some mm) ldh) te).1.stats.base.recv_total = 0 →
              (handleInput st (RInput.msg (some mm) ldh) te).1.stats.base.total_expected = 0 ∧
              (handleInput st (RInput.msg (some mm) ldh) te).1.stats.base.seen =
                (∅ : Finset Nat)) ∧
            (0 < (handleInput st (RInput.msg (some mm) ldh) te).1.stats.base.recv_total →
              (handleInput st (RInput.msg (some mm) ldh) te).1.stats.base.seen.Nonempty) := by
          intro hst
          rw [hst, StatsX.record_base, Stats.record_eq]
          refine ⟨fun h0 => absurd h0 (by simp), fun _ => ?_⟩
          exact ⟨mm.seq, Finset.mem_insert_self _ _⟩
        by_cases hn : st.current_test = none
        · exact hrec (by simp [handleInput, hn])
        · by_cases hm : some mm.test_id = st.current_test
          · exact hrec (by simp [handleInput, hn, hm])
          · have hst : (handleInput st (RInput.msg (some mm) ldh) te).1.stats =
                st.stats := by
              simp [handleInput, hn, hm]
            rw [hst]
            exact ⟨h1, h2⟩
    | _ => simp [isValidMsg] at hv

/-- The received-total relation is an invariant of the whole receiver
loop. -/
theorem runLoop_recv_relation (idle : Nat) (steps : List RStep) (st : RState)
    (h1 : st.stats.base.recv_total = 0 →
      st.stats.base.total_expected = 0 ∧ st.stats.base.seen = (∅ : Finset Nat))
    (h2 : 0 < st.stats.base.recv_total → st.stats.base.seen.Nonempty) :
    ((runLoop idle st steps).stats.base.recv_total = 0 →
      (runLoop idle st steps).stats.base.total_expected = 0 ∧
      (runLoop idle st steps).stats.base.seen = (∅ : Finset Nat)) ∧
    (0 < (runLoop idle st steps).stats.base.recv_total →
      (runLoop idle st steps).stats.base.seen.Nonempty) := by
  induction steps generalizing st with
  | nil => exact ⟨h1, h2⟩
  | cons x rest ih =>
    have hh := handleInput_recv_relation st x.input x.te h1 h2
    simp only [runLoop]
    by_cases hb : (handleInput st x.input x.te).2 = true
    · rw [if_pos hb]; exact hh
    · rw [if_neg hb]
      by_cases hs : stopCheck (handleInput st x.input x.te).1 idle x.tc = true
      · rw [if_pos hs]; exact hh
      · rw [if_neg hs]; exact ih _ hh.1 hh.2

/-- A loop run over inputs containing no valid data message leaves the
whole delivery-side state untouched. -/
theorem runLoop_no_valid (idle : Nat) (steps : List RStep) (st : RState)
    (hno : ∀ x ∈ steps, isValidMsg x.input = false)
    (hT : st.stats.base.total_expected = 0)
    (hR : st.stats.base.recv_total = 0)
    (hS : st.stats.base.seen = (∅ : Finset Nat)) :
    (runLoop idle st steps).start_ms = st.start_ms ∧
    (runLoop idle st steps).stats.base.total_expected = 0 ∧
    (runLoop idle st steps).stats.base.recv_total = 0 ∧
    (runLoop idle st steps).stats.base.seen = (∅ : Finset Nat) := by
  induction steps generalizing st with
  | nil => exact ⟨rfl, hT, hR, hS⟩
  | cons x rest ih =>
    have hh := handleInput_no_valid st x.input x.te (hno x (by simp))
    simp only [runLoop]
    by_cases hb : (handleInput st x.input x.te).2 = true
    · rw [if_pos hb]
      exact ⟨hh.1, by rw [hh.2.1]; exact hT, by rw [hh.2.2.1]; exact hR,
        by rw [hh.2.2.2]; exact hS⟩
    · rw [if_neg hb]
      by_cases hs : stopCheck (handleInput st x.input x.te).1 idle x.tc = true
      · rw [if_pos hs]
        exact ⟨hh.1, by rw [hh.2.1]; exact hT, by rw [hh.2.2.1]; exact hR,
          by rw [hh.2.2.2]; exact hS⟩
      · rw [if_neg hs]
        have hrest := ih (handleInput st x.input x.te).1
          (fun y hy => hno y (by simp [hy]))
          (by rw [hh.2.1]; exact hT) (by rw [hh.2.2.1]; exact hR)
          (by rw [hh.2.2.2]; exact hS)
        exact ⟨hrest.1.trans hh.1, hrest.2.1, hrest.2.2.1, hrest.2.2.2⟩

/-- When no valid data message ever arrives, the loop stops at the first
iteration whose check time exceeds `start + idle`: everything scheduled
after that iteration is never processed. -/
theorem runLoop_cutoff (idle : Nat) (pre : List RStep) (step : RStep)
    (rest : List RStep) (st : RState)
    (hno : ∀ x ∈ pre, isValidMsg x.input = false)
    (hnostep : isValidMsg step.input = false)
    (hpre : ∀ x ∈ pre, x.input ≠ RInput.closed ∧ x.tc ≤ st.start_ms + idle)
    (hT : st.stats.base.total_expected = 0)
    (hstep : st.start_ms + idle < step.tc) :
    runLoop idle st (pre ++ step :: rest) = runLoop idle st (pre ++ [step]) := by
  induction pre generalizing st with
  | nil =>
    simp only [List.nil_append, runLoop]
    by_cases hb : (handleInput st step.input step.te).2 = true
    · rw [if_pos hb, if_pos hb]
    · rw [if_neg hb, if_neg hb]
      have hh := handleInput_no_valid st step.input step.te hnostep
      have hstop : stopCheck (handleInput st step.input step.te).1 idle
          step.tc = true := by
        rw [stopCheck_eq_true_iff]
        right
        refine ⟨by rw [hh.2.1]; exact hT, ?_⟩
        rw [hh.1]
        omega
      rw [if_pos hstop, if_pos hstop]
  | cons x pre' ih =>
    simp only [List.cons_append, runLoop]
    have hx := hpre x (by simp)
    have hbx : (handleInput st x.input x.te).2 = false := by
      rcases Bool.eq_false_or_eq_true (handleInput st x.input x.te).2 with h | h
      · exact absurd ((handleInput_break_iff st x.input x.te).1 h) hx.1
      · exact h
    rw [hbx, if_neg Bool.false_ne_true, if_neg Bool.false_ne_true]
    have hh := handleInput_no_valid st x.input x.te (hno x (by simp))
    have hstop : stopCheck (handleInput st x.input x.te).1 idle x.tc = false := by
      rcases Bool.eq_false_or_eq_true
          (stopCheck (handleInput st x.input x.te).1 idle x.tc) with h | h
      swap
      · exact h
      · exfalso
        rcases (stopCheck_eq_true_iff _ _ _).1 h with hcase | hcase
        · rw [hh.2.1, hT] at hcase
          omega
        · rw [hh.1] at hcase
          have := hx.2
          omega
    rw [hstop, if_neg Bool.false_ne_true, if_neg Bool.false_ne_true]
    exact ih (handleInput st x.input x.te).1
      (fun y hy => hno y (by simp [hy]))
      (fun y hy => ⟨(hpre y (by simp [hy])).1,
        by rw [hh.1]; exact (hpre y (by simp [hy])).2⟩)
      (by rw [hh.2.1]; exact hT)
      (by rw [hh.1]; exact hstep)

/-- `timed_out_no_data` in the final summary holds exactly when the run
recorded no valid data message. -/
theorem runReceiver_timed_out_iff (idle start : Nat) (steps : List RStep)
    (j : Bool) (jw now : Nat) :
    (runReceiver idle start steps j jw now).timed_out_no_data = true ↔
      (runLoop idle (RState.start start) steps).stats.base.recv_total = 0 := by
  have hInv := runLoop_recv_relation idle steps (RState.start start)
    (fun _ => ⟨rfl, rfl⟩)
    (fun h => absurd h (by simp [RState.start, StatsX.init, Stats.init]))
  have hto : (runReceiver idle start steps j jw now).timed_out_no_data =
      !decide (0 < ((runLoop idle (RState.start start)
        steps).stats.base.summarize now).total_expected) := rfl
  have hTE : ((runLoop idle (RState.start start)
      steps).stats.base.summarize now).total_expected =
      max (runLoop idle (RState.start start) steps).stats.base.total_expected
        (runLoop idle (RState.start start) steps).stats.base.seen.card := rfl
  rw [hto, hTE]
  constructor
  · intro h
    have hmax : max
        (runLoop idle (RState.start start) steps).stats.base.total_expected
        (runLoop idle (RState.start start) steps).stats.base.seen.card = 0 := by
      simpa using h
    by_contra hr
    have hpos : 0 < (runLoop idle (RState.start start)
        steps).stats.base.recv_total := Nat.pos_of_ne_zero hr
    have hcard : 0 < (runLoop idle (RState.start start)
        steps).stats.base.seen.card :=
      Finset.card_pos.2 (hInv.2 hpos)
    omega
  · intro h
    obtain ⟨hT, hS⟩ := hInv.1 h
    simp [hT, hS]

/-- C9.  In every iteration of the receiver loop, after event handling, the
loop terminates exactly when either a test has been seen
(`total_expected > 0`) and `now - last_valid_ms` exceeds the idle
threshold, or no test was seen (`total_expected = 0`) and `now - start_time`
exceeds the same threshold; consequently a run that receives no valid data
message stops at the first check past `start + idle` — every later
scheduled iteration is ignored — with `timed_out_no_data = true` in the
resulting `Summary`; and `timed_out_no_data` is `true` if and only if no
valid message was ever recorded (`recv_total = 0` at loop exit). -/
theorem receiver_termination_policy :
    (∀ (st : RState) (idle now : Nat),
      stopCheck st idle now = true ↔
        ((0 < st.stats.base.total_expected ∧
            idle < now - st.last_valid_ms) ∨
         (st.stats.base.total_expected = 0 ∧ idle < now - st.start_ms))) ∧
    (∀ (idle start : Nat) (pre : List RStep) (step : RStep)
        (rest : List RStep) (j : Bool) (jw now : Nat),
      (∀ x ∈ pre ++ step :: rest, isValidMsg x.input = false) →
      (∀ x ∈ pre, x.input ≠ RInput.closed ∧ x.tc ≤ start + idle) →
      start + idle < step.tc →
      runLoop idle (RState.start start) (pre ++ step :: rest) =
          runLoop idle (RState.start start) (pre ++ [step]) ∧
        (runReceiver idle start (pre ++ step :: rest) j jw
            now).timed_out_no_data = true) ∧
    (∀ (idle start : Nat) (steps : List RStep) (j : Bool) (jw now : Nat),
      (runReceiver idle start steps j jw now).timed_out_no_data = true ↔
        (runLoop idle (RState.start start) steps).stats.base.recv_total = 0) := by
  refine ⟨stopCheck_eq_true_iff, ?_, runReceiver_timed_out_iff⟩
  intro idle start pre step rest j jw now hno hpre hstep
  constructor
  · exact runLoop_cutoff idle pre step rest (RState.start start)
      (fun x hx => hno x (by simp [hx]))
      (hno step (by simp))
      hpre
      rfl
      hstep
  · rw [runReceiver_timed_out_iff]
    exact (runLoop_no_valid idle (pre ++ step :: rest) (RState.start start)
      hno rfl rfl rfl).2.2.1

/-- Witness for C9: a run of three iterations with no data message — ticks
at check times 50 and 3100 and a lagged event at 3200, idle threshold
3000 ms from start 0 — stops at the second check and reports
`timed_out_no_data`. -/
theorem receiver_termination_policy_witness :
    runLoop 3000 (RState.start 0)
        ([⟨RInput.tick, 0, 50⟩] ++ ⟨RInput.tick, 3100, 3100⟩ ::
          [⟨RInput.lagged, 3200, 3200⟩]) =
      runLoop 3000 (RState.start 0)
        ([⟨RInput.tick, 0, 50⟩] ++ [⟨RInput.tick, 3100, 3100⟩]) ∧
    (runReceiver 3000 0
        ([⟨RInput.tick, 0, 50⟩] ++ ⟨RInput.tick, 3100, 3100⟩ ::
          [⟨RInput.lagged, 3200, 3200⟩]) true 0 9999).timed_out_no_data =
      true :=
  receiver_termination_policy.2.1 3000 0 [⟨RInput.tick, 0, 50⟩]
    ⟨RInput.tick, 3100, 3100⟩ [⟨RInput.lagged, 3200, 3200⟩] true 0 9999
    (by decide) (by decide) (by decide)

end IrohGossipMetrics
